import Mathlib

/-!
Verification of the reconciliation-and-dispatch engine of an FTP deployment
tool. Shallow embedding of the data model from src/types usage, the
reconciler methods of FTPSyncProvider (src/syncProvider.ts), the worker-pool
dispatcher (class Threading), the per-session worker loop (src/worker.ts)
and the session-refresh policy (ensureFreshConnection in deploy).
-/

namespace FtpDeploy

/-- Kind of a filesystem entry targeted by an operation (field type of a
Record in types: either a file or a folder). -/
inductive RecordType
  | file
  | folder
deriving DecidableEq

/-- One remote filesystem entry targeted by an operation: relative
slash-separated name plus its kind. -/
structure Record where
  name : String
  type : RecordType
deriving DecidableEq

/-- The three dispatchable actions of the engine (FTPAction in types). -/
inductive FTPAction
  | upload
  | replace
  | delete
deriving DecidableEq

/-- A unit of dispatchable work: an action paired with the record it
applies to (ActionRecord in types). -/
structure ActionRecord where
  action : FTPAction
  record : Record
deriving DecidableEq

/-- The categorized reconciliation plan produced by the external diff
engine (DiffResult in types). Size totals are carried but unused by the
dispatch logic. -/
structure DiffResult where
  upload : List Record
  replace : List Record
  delete : List Record
  same : List Record
  sizeUpload : Nat
  sizeReplace : Nat
  sizeDelete : Nat
deriving DecidableEq

/-- JavaScript string split on the slash character, working over the
character list: splitting the empty list gives one empty field, and every
slash closes the current field and opens a new one. Mirrors
fullPath.split of the source. -/
def splitCharList : List Char → List (List Char)
  | [] => [[]]
  | c :: cs =>
    if c = '/' then [] :: splitCharList cs
    else
      match splitCharList cs with
      | [] => [[c]]
      | r :: rs => (c :: r) :: rs

/-- Split a string on the slash separator, JavaScript-style. -/
def jsSplitSlash (s : String) : List String :=
  (splitCharList s.toList).map (fun cs => String.mk cs)

/-- Decomposition of a full path into folder components and a leaf file
name (IFilePath in types). -/
structure IFilePath where
  folders : Option (List String)
  file : Option String
deriving DecidableEq

/-- FTPSyncProvider.getFileBreadcrumbs: split the full path on slashes,
pop the last element as the file, keep the nonempty remaining components
as the folders; empty collections become none. -/
def getFileBreadcrumbs (fullPath : String) : IFilePath :=
  let pathSplit := jsSplitSlash fullPath
  let file := pathSplit.getLastD ""
  let folders := pathSplit.dropLast.filter (fun folderName => folderName != "")
  { folders := if folders.length = 0 then none else some folders
    file := if file = "" then none else some file }

/-- Remote primitives issued by the reconciler, at the granularity of the
basic-ftp client calls it makes. -/
inductive FtpOp
  | ensureDirOp (folder : String)
  | cdup
  | removeOp (path : String)
  | removeDirOp (path : String)
  | uploadFromOp (localFile : String) (remoteFile : String)
deriving DecidableEq

/-- Working-directory effect of client.ensureDir on a relative path: the
session descends into each folder component in turn (creating missing
folders idempotently). The joined path handed over by createFolder has no
empty components, so the descent is exactly the component list. -/
def ensureDirWd (wd : List String) (folders : List String) : List String :=
  wd ++ folders

/-- Working-directory effect of a single client.cdup: drop the last
component of the working directory. -/
def cdupWd (wd : List String) : List String :=
  wd.dropLast

/-- FTPSyncProvider.upDir: when the argument is not a number do nothing,
otherwise issue that many cdup calls. -/
def upDirWd (wd : List String) (dirCount : Option Nat) : List String :=
  match dirCount with
  | none => wd
  | some n => cdupWd^[n] wd

/-- FTPSyncProvider.createFolder, modelled as the pair of the final
working directory and the list of remote operations issued. In dry-run
mode it returns immediately; otherwise it takes the breadcrumbs of the
folder path with a trailing slash appended, changes into the joined
folder path when folder components exist, and then navigates back up by
the number of components descended. -/
def createFolder (dryRun : Bool) (wd : List String) (folderPath : String) :
    List String × List FtpOp :=
  if dryRun = true then (wd, [])
  else
    let path := getFileBreadcrumbs (folderPath ++ "/")
    match path.folders with
    | none => (upDirWd wd none, [])
    | some folders =>
        (upDirWd (ensureDirWd wd folders) (some folders.length),
         FtpOp.ensureDirOp (String.intercalate "/" folders) ::
           List.replicate folders.length FtpOp.cdup)

/-- Error classification carried by a remote failure; the remote remove
reports FileNotFoundOrNoAccess when the target is already gone or not
accessible (ErrorCode in types), and any other protocol error is carried
opaquely. -/
inductive ErrorCode
  | FileNotFoundOrNoAccess
  | otherError (code : Nat)
deriving DecidableEq

/-- Outcome of the retry-wrapped client.remove call as observed by
removeFile: either the remove succeeded, or all attempts failed and the
final error propagates. -/
inductive RemoveResult
  | ok
  | err (code : ErrorCode)
deriving DecidableEq

/-- FTPSyncProvider.removeFile, modelled on the outcome of the wrapped
remote remove: outside dry-run it issues the remove, swallows a
FileNotFoundOrNoAccess failure as a benign skip, and rethrows every other
failure; in dry-run mode it does nothing and returns normally. -/
def removeFile (dryRun : Bool) (remoteResult : RemoveResult) : Except ErrorCode Unit :=
  if dryRun = false then
    match remoteResult with
    | RemoveResult.ok => Except.ok ()
    | RemoveResult.err code =>
        if code = ErrorCode.FileNotFoundOrNoAccess then Except.ok ()
        else Except.error code
  else Except.ok ()

/-- The two labels of FTPSyncProvider.uploadFile; the transfer itself is
identical for both. -/
inductive UploadMode
  | upload
  | replace
deriving DecidableEq

/-- The reconciler operation selected by FTPSyncProvider.syncRecordToServer
for one record and action. -/
inductive SyncOp
  | createFolderOp (name : String)
  | uploadFileOp (name : String) (mode : UploadMode)
  | removeFileOp (name : String)
  | removeFolderOp (name : String)
deriving DecidableEq

/-- FTPSyncProvider.syncRecordToServer: the dispatch table keyed by the
action. The upload and delete branches inspect the record type; the
replace branch calls uploadFile on the record name unconditionally. -/
def syncRecordToServer (record : Record) (action : FTPAction) : SyncOp :=
  match action with
  | FTPAction.upload =>
      if record.type = RecordType.folder then SyncOp.createFolderOp record.name
      else SyncOp.uploadFileOp record.name UploadMode.upload
  | FTPAction.delete =>
      if record.type = RecordType.folder then SyncOp.removeFolderOp record.name
      else SyncOp.removeFileOp record.name
  | FTPAction.replace => SyncOp.uploadFileOp record.name UploadMode.replace

/-- Dispatcher state of class Threading: the pool size, the FIFO task
queue, the idle-worker list, the in-flight assignments (a worker is busy
from assignment until it reports), the workers terminated after a failure
report, and the active-task counter. The source keeps busyness implicit
(a worker is busy iff assigned and not yet reported) and terminates a
failed worker; the busy and failed lists make that bookkeeping explicit.
Workers are identified by their creation index. -/
structure ThreadingState where
  numWorkers : Nat
  taskQueue : List ActionRecord
  idleWorkers : List Nat
  busyWorkers : List (Nat × ActionRecord)
  failedWorkers : List Nat
  activeTasks : Int
deriving DecidableEq

/-- Threading.processNextTask: when the task queue and the idle-worker
list are both nonempty, shift the head task off the queue and the first
idle worker off the idle list and post the task to that worker (the
worker becomes busy on the task); otherwise do nothing. A single call
assigns at most one task. -/
def processNextTask (s : ThreadingState) : ThreadingState :=
  match s.taskQueue, s.idleWorkers with
  | task :: restQueue, worker :: restIdle =>
      { s with
        taskQueue := restQueue
        idleWorkers := restIdle
        busyWorkers := s.busyWorkers ++ [(worker, task)] }
  | _, _ => s

/-- Threading.addTasks: wrap each record with the action into an
ActionRecord, append the batch to the queue tail, add the batch size to
the active-task counter, then attempt one dispatch. -/
def addTasks (s : ThreadingState) (tasks : List Record) (action : FTPAction) :
    ThreadingState :=
  processNextTask
    { s with
      taskQueue := s.taskQueue ++ tasks.map (fun task => ⟨action, task⟩)
      activeTasks := s.activeTasks + tasks.length }

/-- Drop the in-flight assignment of the given worker. The source tracks
busyness implicitly, so a report simply ends the in-flight assignment of
the reporting worker; the pool invariants guarantee at most one entry per
worker. -/
def removeWorker : List (Nat × ActionRecord) → Nat → List (Nat × ActionRecord)
  | [], _ => []
  | p :: rest, worker =>
      if p.1 = worker then rest else p :: removeWorker rest worker

/-- The taskCompleted branch of the message handler installed by
Threading.createWorkers: push the reporting worker back onto the idle
list, decrement the active-task counter, and attempt one dispatch. -/
def onTaskCompleted (s : ThreadingState) (worker : Nat) : ThreadingState :=
  processNextTask
    { s with
      idleWorkers := s.idleWorkers ++ [worker]
      busyWorkers := removeWorker s.busyWorkers worker
      activeTasks := s.activeTasks - 1 }

/-- The taskFailed branch of the message handler installed by
Threading.createWorkers: decrement the active-task counter; when the
report carries the failed task, push it back onto the queue tail and
increment the counter back; terminate the reporting worker (it is never
pushed back onto the idle list). -/
def onTaskFailed (s : ThreadingState) (worker : Nat) (reportedTask : Option ActionRecord) :
    ThreadingState :=
  let s1 :=
    { s with
      busyWorkers := removeWorker s.busyWorkers worker
      failedWorkers := s.failedWorkers ++ [worker]
      activeTasks := s.activeTasks - 1 }
  match reportedTask with
  | some task =>
      { s1 with taskQueue := s1.taskQueue ++ [task], activeTasks := s1.activeTasks + 1 }
  | none => s1

/-- Threading.start: createWorkers pushes numWorkers fresh workers onto
the worker and idle lists, then one dispatch attempt runs (the queue is
still empty at that point). -/
def startState (numWorkers : Nat) : ThreadingState :=
  processNextTask
    { numWorkers := numWorkers
      taskQueue := []
      idleWorkers := List.range numWorkers
      busyWorkers := []
      failedWorkers := []
      activeTasks := 0 }

/-- One observable transition of the dispatcher: an addTasks call from
the reconciler, a completion report from a busy worker, or a failure
report from a busy worker (carrying the failed task or not, as the
handler checks for its presence). Reports can only come from a worker
that is in flight on the reported task. -/
inductive ThreadingStep : ThreadingState → ThreadingState → Prop
  | addTasksStep (s : ThreadingState) (tasks : List Record) (action : FTPAction) :
      ThreadingStep s (addTasks s tasks action)
  | completedStep (s : ThreadingState) (worker : Nat) (task : ActionRecord)
      (h : (worker, task) ∈ s.busyWorkers) :
      ThreadingStep s (onTaskCompleted s worker)
  | failedStep (s : ThreadingState) (worker : Nat) (task : ActionRecord)
      (h : (worker, task) ∈ s.busyWorkers) (carry : Bool) :
      ThreadingStep s (onTaskFailed s worker (if carry then some task else none))

/-- Dispatcher states observable between pool start and pool stop:
the state right after Threading.start, closed under dispatcher
transitions. -/
inductive ReachableState : ThreadingState → Prop
  | start (numWorkers : Nat) : ReachableState (startState numWorkers)
  | step {s s' : ThreadingState} :
      ReachableState s → ThreadingStep s s' → ReachableState s'

/-- The exit condition of the polling loop in Threading.waitForAllTasks:
the loop keeps sleeping while the active-task counter is positive or the
queue is nonempty, so the call returns exactly when this holds. -/
def allTasksDone (s : ThreadingState) : Prop :=
  ¬(s.activeTasks > 0 ∨ s.taskQueue.length > 0)

/-- Messages a worker posts back to the dispatcher. -/
inductive WorkerMsg
  | taskCompletedMsg (result : String)
  | taskFailedMsg (task : ActionRecord) (errId : Nat)
deriving DecidableEq

/-- Events of one processTask run in the worker of src/worker.ts: a
syncRecordToServer attempt, an establishConnection call made by the
recovery tier, and a posted message. -/
inductive WorkerEvent
  | syncAttempt
  | reconnectAttempt
  | post (msg : WorkerMsg)
deriving DecidableEq

/-- Outcome of one syncRecordToServer call inside the worker: success, or
a thrown error together with whether its message contains the
Not connected marker. -/
inductive SyncOutcome
  | success
  | failure (notConnected : Bool) (errId : Nat)
deriving DecidableEq

/-- Environment of one processTask run: the result of the leading
ensureFreshConnection check, the outcome of the first sync attempt, the
result of the establishConnection call of the recovery tier, and the
outcome of the retried sync. -/
structure WorkerEnv where
  freshConnOk : Bool
  firstSync : SyncOutcome
  establishOk : Bool
  retrySync : SyncOutcome
deriving DecidableEq

/-- processTask of src/worker.ts, modelled as the event list of the run
plus its boolean result. When the leading freshness check fails the run
returns false without posting. A successful sync posts taskCompleted with
the record name. A sync failure whose error message contains
Not connected triggers one establishConnection call; when that succeeds
the sync is retried once, posting taskCompleted on success and taskFailed
with the original task and the retry error on failure; when the
establishConnection fails, or the error is any other failure, taskFailed
is posted with the original task and the original error. -/
def processTask (env : WorkerEnv) (task : ActionRecord) : List WorkerEvent × Bool :=
  if env.freshConnOk = false then ([], false)
  else
    match env.firstSync with
    | SyncOutcome.success =>
        ([WorkerEvent.syncAttempt,
          WorkerEvent.post (WorkerMsg.taskCompletedMsg task.record.name)], true)
    | SyncOutcome.failure notConnected errId =>
        if notConnected = true then
          if env.establishOk = true then
            match env.retrySync with
            | SyncOutcome.success =>
                ([WorkerEvent.syncAttempt, WorkerEvent.reconnectAttempt,
                  WorkerEvent.syncAttempt,
                  WorkerEvent.post (WorkerMsg.taskCompletedMsg task.record.name)], true)
            | SyncOutcome.failure _ retryErrId =>
                ([WorkerEvent.syncAttempt, WorkerEvent.reconnectAttempt,
                  WorkerEvent.syncAttempt,
                  WorkerEvent.post (WorkerMsg.taskFailedMsg task retryErrId)], false)
          else
            ([WorkerEvent.syncAttempt, WorkerEvent.reconnectAttempt,
              WorkerEvent.post (WorkerMsg.taskFailedMsg task errId)], false)
        else
          ([WorkerEvent.syncAttempt,
            WorkerEvent.post (WorkerMsg.taskFailedMsg task errId)], false)

/-- ensureFreshConnection of the deploy module: timestamps are epoch
milliseconds and the configured reconnect timeout is in seconds. When the
elapsed time since the last connection reaches the scaled timeout the
session is closed and reopened and the function returns a fresh timestamp
(read after the reconnect, hence passed separately); otherwise it returns
the stored timestamp unchanged. The boolean records whether a reconnect
was performed. -/
def ensureFreshConnection (now lastConnectionTime reconnectTimeout afterConnect : Int) :
    Int × Bool :=
  if now - lastConnectionTime ≥ reconnectTimeout * 1000 then (afterConnect, true)
  else (lastConnectionTime, false)

/-- One observable step of FTPSyncProvider.syncLocalToServer: a
syncRecordToServer call on a record with an action, or the final state
file upload. -/
inductive DeployStep
  | dispatchStep (action : FTPAction) (record : Record)
  | stateUploadStep
deriving DecidableEq

/-- The per-record dispatch part of FTPSyncProvider.syncLocalToServer, in
source order: upload-set folders, then upload-set files excluding the
state name, then replace-set files excluding the state name, then
delete-set files, then delete-set folders. Only the upload and replace
file loops filter out the state name. -/
def seqDispatchSteps (stateName : String) (diffs : DiffResult) : List DeployStep :=
  ((diffs.upload.filter (fun item => decide (item.type = RecordType.folder))).map
      (DeployStep.dispatchStep FTPAction.upload)) ++
  (((diffs.upload.filter (fun item => decide (item.type = RecordType.file))).filter
      (fun item => decide (item.name ≠ stateName))).map
      (DeployStep.dispatchStep FTPAction.upload)) ++
  (((diffs.replace.filter (fun item => decide (item.type = RecordType.file))).filter
      (fun item => decide (item.name ≠ stateName))).map
      (DeployStep.dispatchStep FTPAction.replace)) ++
  ((diffs.delete.filter (fun item => decide (item.type = RecordType.file))).map
      (DeployStep.dispatchStep FTPAction.delete)) ++
  ((diffs.delete.filter (fun item => decide (item.type = RecordType.folder))).map
      (DeployStep.dispatchStep FTPAction.delete))

/-- FTPSyncProvider.syncLocalToServer as its ordered step trace: the
per-record dispatches followed by the state-file upload, the latter
suppressed in dry-run mode. -/
def syncLocalToServer (stateName : String) (dryRun : Bool) (diffs : DiffResult) :
    List DeployStep :=
  seqDispatchSteps stateName diffs ++
    (if dryRun = false then [DeployStep.stateUploadStep] else [])

/-- One observable step of FTPSyncProvider.syncLocalToServerMultiThread:
a task handed to the worker pool through threading.addTasks, a
syncRecordToServer call run on the main session, the blocking
threading.waitForAllTasks call, or the final state-file upload. -/
inductive MTStep
  | enqueueStep (action : FTPAction) (record : Record)
  | mainSyncStep (action : FTPAction) (record : Record)
  | waitDrainStep
  | stateUploadStep
deriving DecidableEq

/-- The upload-set file records kept by syncLocalToServerMultiThread:
files whose name differs from the state name. -/
def uploadFilesOf (stateName : String) (diffs : DiffResult) : List Record :=
  diffs.upload.filter
    (fun item => decide (item.type = RecordType.file) && decide (item.name ≠ stateName))

/-- The containing-folder key used by the filesByFolder grouping: the
name split on slashes with the last component removed and rejoined. -/
def folderKeyOf (name : String) : String :=
  String.intercalate "/" ((jsSplitSlash name).dropLast)

/-- The per-record work of FTPSyncProvider.syncLocalToServerMultiThread
in source order: top-level upload files enqueued first, then for each
upload-set folder a main-session creation followed by the enqueue of the
files grouped under that folder key, then main-session folder deletions,
then enqueued replacements, then enqueued file deletions. -/
def mtDispatchSteps (stateName : String) (diffs : DiffResult) : List MTStep :=
  let uploadFiles := uploadFilesOf stateName diffs
  ((uploadFiles.filter (fun item => decide ((jsSplitSlash item.name).length = 1))).map
      (MTStep.enqueueStep FTPAction.upload)) ++
  ((diffs.upload.filter (fun item => decide (item.type = RecordType.folder))).flatMap
      (fun folder =>
        MTStep.mainSyncStep FTPAction.upload folder ::
          ((uploadFiles.filter (fun item => decide (folderKeyOf item.name = folder.name))).map
            (MTStep.enqueueStep FTPAction.upload)))) ++
  ((diffs.delete.filter (fun item => decide (item.type = RecordType.folder))).map
      (MTStep.mainSyncStep FTPAction.delete)) ++
  (((diffs.replace.filter (fun item => decide (item.type = RecordType.file) &&
      decide (item.name ≠ stateName)))).map
      (MTStep.enqueueStep FTPAction.replace)) ++
  ((diffs.delete.filter (fun item => decide (item.type = RecordType.file))).map
      (MTStep.enqueueStep FTPAction.delete))

/-- FTPSyncProvider.syncLocalToServerMultiThread as its ordered step
trace: the per-record work, then the blocking waitForAllTasks call, then
the state-file upload, the latter suppressed in dry-run mode. -/
def syncLocalToServerMultiThread (stateName : String) (dryRun : Bool) (diffs : DiffResult) :
    List MTStep :=
  mtDispatchSteps stateName diffs ++
    MTStep.waitDrainStep ::
      (if dryRun = false then [MTStep.stateUploadStep] else [])

/-- Ascending once per component of an appended suffix restores the
original working directory. -/
lemma cdupWd_iterate_append (wd ys : List String) :
    cdupWd^[ys.length] (wd ++ ys) = wd := by
  induction ys using List.reverseRecOn with
  | nil => simp
  | append_singleton zs a ih =>
      rw [List.length_append, List.length_singleton, Function.iterate_succ_apply]
      have h : cdupWd (wd ++ (zs ++ [a])) = wd ++ zs := by
        rw [← List.append_assoc]
        simp [cdupWd]
      rw [h, ih]

/-- C7: createFolder restores the working directory: with folder
components it descends into the joined path and then ascends exactly one
level per component, so the final working directory equals the initial
one; with no folder components it issues no operation; in dry-run mode it
performs no remote operation at all. -/
theorem createFolder_restores_wd (dryRun : Bool) (wd : List String) (folderPath : String) :
    (createFolder dryRun wd folderPath).1 = wd
    ∧ (dryRun = true → createFolder dryRun wd folderPath = (wd, []))
    ∧ ((getFileBreadcrumbs (folderPath ++ "/")).folders = none →
        (createFolder dryRun wd folderPath).2 = [])
    ∧ (∀ fs, dryRun = false → (getFileBreadcrumbs (folderPath ++ "/")).folders = some fs →
        (createFolder dryRun wd folderPath).2 =
          FtpOp.ensureDirOp (String.intercalate "/" fs) ::
            List.replicate fs.length FtpOp.cdup) := by
  cases dryRun with
  | true => simp [createFolder]
  | false =>
      cases h : (getFileBreadcrumbs (folderPath ++ "/")).folders with
      | none => simp [createFolder, h, upDirWd]
      | some fs =>
          refine ⟨?_, by simp, by simp [h], ?_⟩
          · simp [createFolder, h, upDirWd, ensureDirWd, cdupWd_iterate_append]
          · intro fs' _ hfs'
            cases hfs'
            simp [createFolder, h]

/-- Witness for the createFolder theorem at a concrete folder path and
working directory, in wet-run and dry-run mode. -/
theorem createFolder_restores_wd_witness :
    (createFolder false ["root"] "img/a").1 = ["root"]
    ∧ createFolder true ["root"] "img/a" = (["root"], []) :=
  ⟨(createFolder_restores_wd false ["root"] "img/a").1,
   (createFolder_restores_wd true ["root"] "img/a").2.1 rfl⟩

/-- C6: outside dry-run, removeFile swallows a not-found-or-no-access
failure of the remote remove and returns normally, while every other
failure propagates to the caller unchanged; a successful remove returns
normally. -/
theorem removeFile_not_found_skip :
    removeFile false (RemoveResult.err ErrorCode.FileNotFoundOrNoAccess) = Except.ok ()
    ∧ (∀ code, code ≠ ErrorCode.FileNotFoundOrNoAccess →
        removeFile false (RemoveResult.err code) = Except.error code)
    ∧ removeFile false RemoveResult.ok = Except.ok () := by
  refine ⟨rfl, ?_, rfl⟩
  intro code hcode
  simp [removeFile, hcode]

/-- Witness for the removeFile theorem at a concrete other-error code. -/
theorem removeFile_not_found_skip_witness :
    ErrorCode.otherError 530 ≠ ErrorCode.FileNotFoundOrNoAccess
    ∧ removeFile false (RemoveResult.err (ErrorCode.otherError 530)) =
        Except.error (ErrorCode.otherError 530) :=
  ⟨by decide, removeFile_not_found_skip.2.1 (ErrorCode.otherError 530) (by decide)⟩

/-- C8: the session-refresh decision of ensureFreshConnection is true
exactly when the elapsed milliseconds since the last connection reach the
configured timeout in seconds scaled to milliseconds, and when the
decision is false no reconnect happens and the stored timestamp is
returned unchanged. -/
theorem ensureFreshConnection_threshold
    (now lastConnectionTime reconnectTimeout afterConnect : Int) :
    ((ensureFreshConnection now lastConnectionTime reconnectTimeout afterConnect).2 = true ↔
      now - lastConnectionTime ≥ reconnectTimeout * 1000)
    ∧ ((ensureFreshConnection now lastConnectionTime reconnectTimeout afterConnect).2 = false →
        ensureFreshConnection now lastConnectionTime reconnectTimeout afterConnect =
          (lastConnectionTime, false)) := by
  unfold ensureFreshConnection
  by_cases h : now - lastConnectionTime ≥ reconnectTimeout * 1000 <;> simp [h]

/-- Witness for the refresh-decision theorem: five elapsed seconds
against a ten second timeout refreshes nothing and keeps the stored
timestamp. -/
theorem ensureFreshConnection_threshold_witness :
    (ensureFreshConnection 5000 0 10 6000).2 = false
    ∧ ensureFreshConnection 5000 0 10 6000 = (0, false) :=
  ⟨by decide, (ensureFreshConnection_threshold 5000 0 10 6000).2 (by decide)⟩

/-- C10: the replace branch of syncRecordToServer ignores the record
type: dispatching any record with the replace action performs a file
upload of the record name, and a folder record is treated exactly as the
file record of the same name. -/
theorem syncRecordToServer_replace_ignores_type (record : Record) :
    syncRecordToServer record FTPAction.replace =
      SyncOp.uploadFileOp record.name UploadMode.replace
    ∧ syncRecordToServer ⟨record.name, RecordType.folder⟩ FTPAction.replace =
        syncRecordToServer ⟨record.name, RecordType.file⟩ FTPAction.replace :=
  ⟨rfl, rfl⟩

/-- Pool bookkeeping invariant of the dispatcher: no worker is tracked
twice across the idle, busy and failed lists; the three lists together
account for exactly the configured pool size; and the active-task counter
equals the queued tasks plus the in-flight tasks. -/
structure ThreadingInv (s : ThreadingState) : Prop where
  nodupWorkers : (s.idleWorkers ++ s.busyWorkers.map Prod.fst ++ s.failedWorkers).Nodup
  workerCount :
    s.idleWorkers.length + s.busyWorkers.length + s.failedWorkers.length = s.numWorkers
  taskCount : s.activeTasks = (s.taskQueue.length : Int) + s.busyWorkers.length

/-- Moving a worker from the head of the idle list to the end of the busy
list permutes the combined worker list. -/
lemma permMoveHeadToMid (A B C : List Nat) (w : Nat) :
    (A ++ (B ++ [w]) ++ C).Perm (w :: (A ++ B ++ C)) := by
  simpa [List.append_assoc] using
    (@List.perm_middle _ w (A ++ B) C)

/-- Moving a worker from the middle of the busy list to the end of the
idle list permutes the combined worker list. -/
lemma permMoveMidToIdle (A B1 B2 C : List Nat) (w : Nat) :
    ((A ++ [w]) ++ (B1 ++ B2) ++ C).Perm (A ++ (B1 ++ w :: B2) ++ C) := by
  have h1 : ((A ++ [w]) ++ (B1 ++ B2) ++ C).Perm (w :: (A ++ B1 ++ B2 ++ C)) := by
    have := @List.perm_middle _ w A (B1 ++ B2 ++ C)
    simp only [List.append_assoc, List.singleton_append, List.cons_append] at this ⊢
    exact this
  have h2 : (A ++ (B1 ++ w :: B2) ++ C).Perm (w :: (A ++ B1 ++ B2 ++ C)) := by
    simpa [List.append_assoc] using
      (@List.perm_middle _ w (A ++ B1) (B2 ++ C))
  exact h1.trans h2.symm

/-- Moving a worker from the middle of the busy list to the end of the
failed list permutes the combined worker list. -/
lemma permMoveMidToFailed (A B1 B2 C : List Nat) (w : Nat) :
    (A ++ (B1 ++ B2) ++ (C ++ [w])).Perm (A ++ (B1 ++ w :: B2) ++ C) := by
  have h1 : (A ++ (B1 ++ B2) ++ (C ++ [w])).Perm (w :: (A ++ B1 ++ B2 ++ C)) := by
    have := List.perm_append_singleton w (A ++ B1 ++ B2 ++ C)
    simp only [List.append_assoc] at this ⊢
    exact this
  have h2 : (A ++ (B1 ++ w :: B2) ++ C).Perm (w :: (A ++ B1 ++ B2 ++ C)) := by
    simpa [List.append_assoc] using
      (@List.perm_middle _ w (A ++ B1) (B2 ++ C))
  exact h1.trans h2.symm

/-- When the first components of the busy list are distinct, the entry of
an in-flight worker splits the list, and removeWorker deletes exactly
that entry. -/
lemma removeWorker_decomp {busy : List (Nat × ActionRecord)} {w : Nat} {t : ActionRecord}
    (hnd : (busy.map Prod.fst).Nodup) (hmem : (w, t) ∈ busy) :
    ∃ l1 l2, busy = l1 ++ (w, t) :: l2 ∧ removeWorker busy w = l1 ++ l2 ∧
      w ∉ (l1 ++ l2).map Prod.fst := by
  induction busy with
  | nil => cases hmem
  | cons p rest ih =>
      rw [List.map_cons, List.nodup_cons] at hnd
      by_cases hp : p.1 = w
      · have hpe : p = (w, t) := by
          rcases List.mem_cons.mp hmem with hh | hh
          · exact hh.symm
          · exact absurd (hp ▸ List.mem_map_of_mem Prod.fst hh) (by simpa [hp] using hnd.1)
        refine ⟨[], rest, by simp [hpe], by simp [removeWorker, hp], ?_⟩
        simpa [hp] using hnd.1
      · have hmem' : (w, t) ∈ rest := by
          rcases List.mem_cons.mp hmem with hh | hh
          · exact absurd (congrArg Prod.fst hh.symm) hp
          · exact hh
        rcases ih hnd.2 hmem' with ⟨l1, l2, h1, h2, h3⟩
        refine ⟨p :: l1, l2, by simp [h1], by simp [removeWorker, hp, h2], ?_⟩
        rw [List.cons_append, List.map_cons, List.mem_cons]
        rintro (hh | hh)
        · exact hp hh.symm
        · exact h3 hh

/-- A single dispatch attempt preserves the pool invariant. -/
lemma threadingInv_processNextTask {s : ThreadingState} (h : ThreadingInv s) :
    ThreadingInv (processNextTask s) := by
  rcases h with ⟨hnd, hwc, htc⟩
  cases hq : s.taskQueue with
  | nil =>
      have he : processNextTask s = s := by
        cases hi : s.idleWorkers <;> simp [processNextTask, hq, hi]
      rw [he]; exact ⟨hnd, hwc, htc⟩
  | cons task restQ =>
      cases hi : s.idleWorkers with
      | nil =>
          have he : processNextTask s = s := by simp [processNextTask, hq, hi]
          rw [he]; exact ⟨hnd, hwc, htc⟩
      | cons w restI =>
          have hs' : processNextTask s =
              { s with
                taskQueue := restQ
                idleWorkers := restI
                busyWorkers := s.busyWorkers ++ [(w, task)] } := by
            simp [processNextTask, hq, hi]
          rw [hs']
          rw [hq] at htc
          rw [hi] at hnd hwc
          refine ⟨?_, ?_, ?_⟩
          · simp only [List.map_append, List.map_cons, List.map_nil]
            refine (permMoveHeadToMid restI (s.busyWorkers.map Prod.fst)
              s.failedWorkers w).symm.nodup ?_
            simpa using hnd
          · simp only [List.length_append, List.length_cons, List.length_nil] at hwc ⊢
            omega
          · simp only [List.length_append, List.length_cons, List.length_nil] at htc ⊢
            push_cast at htc ⊢
            omega

/-- addTasks preserves the pool invariant. -/
lemma threadingInv_addTasks {s : ThreadingState} (h : ThreadingInv s)
    (tasks : List Record) (action : FTPAction) :
    ThreadingInv (addTasks s tasks action) := by
  rcases h with ⟨hnd, hwc, htc⟩
  refine threadingInv_processNextTask ⟨hnd, hwc, ?_⟩
  simp only [List.length_append, List.length_map]
  push_cast
  omega

/-- The busy-list part of the worker list is itself duplicate free. -/
lemma busy_map_nodup {s : ThreadingState} (h : ThreadingInv s) :
    (s.busyWorkers.map Prod.fst).Nodup := by
  have hsub : List.Sublist (s.busyWorkers.map Prod.fst)
      (s.idleWorkers ++ s.busyWorkers.map Prod.fst ++ s.failedWorkers) := by
    rw [List.append_assoc]
    exact ((List.sublist_append_left (s.busyWorkers.map Prod.fst) s.failedWorkers).trans
      (List.sublist_append_right s.idleWorkers _))
  exact h.nodupWorkers.sublist hsub

/-- A completion report preserves the pool invariant. -/
lemma threadingInv_onTaskCompleted {s : ThreadingState} {worker : Nat} {task : ActionRecord}
    (h : ThreadingInv s) (hmem : (worker, task) ∈ s.busyWorkers) :
    ThreadingInv (onTaskCompleted s worker) := by
  rcases removeWorker_decomp (busy_map_nodup h) hmem with ⟨l1, l2, hbusy, hrem, _⟩
  rcases h with ⟨hnd, hwc, htc⟩
  rw [hbusy] at hnd hwc htc
  refine threadingInv_processNextTask ⟨?_, ?_, ?_⟩
  · show ((s.idleWorkers ++ [worker]) ++ (removeWorker s.busyWorkers worker).map Prod.fst ++
        s.failedWorkers).Nodup
    rw [hrem]
    simp only [List.map_append, List.map_cons]
    refine (permMoveMidToIdle s.idleWorkers (l1.map Prod.fst) (l2.map Prod.fst)
      s.failedWorkers worker).symm.nodup ?_
    simpa using hnd
  · show (s.idleWorkers ++ [worker]).length + (removeWorker s.busyWorkers worker).length +
        s.failedWorkers.length = s.numWorkers
    rw [hrem]
    simp only [List.length_append, List.length_cons, List.length_nil] at hwc ⊢
    omega
  · show s.activeTasks - 1 =
        (s.taskQueue.length : Int) + (removeWorker s.busyWorkers worker).length
    rw [hrem]
    simp only [List.length_append, List.length_cons] at htc ⊢
    push_cast at htc ⊢
    omega

/-- A failure report preserves the pool invariant, whether or not the
report carries the failed task. -/
lemma threadingInv_onTaskFailed {s : ThreadingState} {worker : Nat} {task : ActionRecord}
    (h : ThreadingInv s) (hmem : (worker, task) ∈ s.busyWorkers)
    (reportedTask : Option ActionRecord) :
    ThreadingInv (onTaskFailed s worker reportedTask) := by
  rcases removeWorker_decomp (busy_map_nodup h) hmem with ⟨l1, l2, hbusy, hrem, _⟩
  rcases h with ⟨hnd, hwc, htc⟩
  rw [hbusy] at hnd hwc htc
  have hndNew : ((s.idleWorkers ++ (removeWorker s.busyWorkers worker).map Prod.fst) ++
      (s.failedWorkers ++ [worker])).Nodup := by
    rw [hrem]
    simp only [List.map_append, List.map_cons]
    refine (permMoveMidToFailed s.idleWorkers (l1.map Prod.fst) (l2.map Prod.fst)
      s.failedWorkers worker).symm.nodup ?_
    simpa using hnd
  cases reportedTask with
  | none =>
      refine ⟨?_, ?_, ?_⟩
      · simpa [List.append_assoc] using hndNew
      · show s.idleWorkers.length + (removeWorker s.busyWorkers worker).length +
            (s.failedWorkers ++ [worker]).length = s.numWorkers
        rw [hrem]
        simp only [List.length_append, List.length_cons, List.length_nil] at hwc ⊢
        omega
      · show s.activeTasks - 1 =
            (s.taskQueue.length : Int) + (removeWorker s.busyWorkers worker).length
        rw [hrem]
        simp only [List.length_append, List.length_cons] at htc ⊢
        push_cast at htc ⊢
        omega
  | some t =>
      refine ⟨?_, ?_, ?_⟩
      · simpa [List.append_assoc] using hndNew
      · show s.idleWorkers.length + (removeWorker s.busyWorkers worker).length +
            (s.failedWorkers ++ [worker]).length = s.numWorkers
        rw [hrem]
        simp only [List.length_append, List.length_cons, List.length_nil] at hwc ⊢
        omega
      · show s.activeTasks - 1 + 1 =
            ((s.taskQueue ++ [t]).length : Int) +
              (removeWorker s.busyWorkers worker).length
        rw [hrem]
        simp only [List.length_append, List.length_cons, List.length_nil] at htc ⊢
        push_cast at htc ⊢
        omega

/-- The pool invariant holds right after Threading.start. -/
lemma threadingInv_start (numWorkers : Nat) : ThreadingInv (startState numWorkers) := by
  refine threadingInv_processNextTask ⟨?_, ?_, ?_⟩
  · simpa using List.nodup_range numWorkers
  · simp
  · simp

/-- Every dispatcher transition preserves the pool invariant. -/
lemma threadingInv_step {s s' : ThreadingState} (h : ThreadingInv s)
    (hstep : ThreadingStep s s') : ThreadingInv s' := by
  cases hstep with
  | addTasksStep tasks action => exact threadingInv_addTasks h tasks action
  | completedStep worker task hmem => exact threadingInv_onTaskCompleted h hmem
  | failedStep worker task hmem carry =>
      exact threadingInv_onTaskFailed h hmem (if carry then some task else none)

/-- The pool invariant holds in every observable dispatcher state. -/
lemma threadingInv_reachable {s : ThreadingState} (h : ReachableState s) :
    ThreadingInv s := by
  induction h with
  | start numWorkers => exact threadingInv_start numWorkers
  | step hr hstep ih => exact threadingInv_step ih hstep

/-- A dispatch attempt never changes the failed-worker list. -/
lemma processNextTask_failed_eq (s : ThreadingState) :
    (processNextTask s).failedWorkers = s.failedWorkers := by
  cases hq : s.taskQueue <;> cases hi : s.idleWorkers <;> simp [processNextTask, hq, hi]

/-- A failure report always appends the reporting worker to the failed
list. -/
lemma onTaskFailed_failed_eq (s : ThreadingState) (worker : Nat)
    (reportedTask : Option ActionRecord) :
    (onTaskFailed s worker reportedTask).failedWorkers = s.failedWorkers ++ [worker] := by
  cases reportedTask <;> rfl

/-- A worker recorded as failed stays recorded as failed across every
dispatcher transition. -/
lemma failed_mem_step {s s' : ThreadingState} (hstep : ThreadingStep s s') {w : Nat}
    (hw : w ∈ s.failedWorkers) : w ∈ s'.failedWorkers := by
  cases hstep with
  | addTasksStep tasks action =>
      show w ∈ (addTasks s tasks action).failedWorkers
      rw [addTasks, processNextTask_failed_eq]
      exact hw
  | completedStep worker task hmem =>
      show w ∈ (onTaskCompleted s worker).failedWorkers
      rw [onTaskCompleted, processNextTask_failed_eq]
      exact hw
  | failedStep worker task hmem carry =>
      rw [onTaskFailed_failed_eq]
      exact List.mem_append_left _ hw

/-- Dispatcher states reachable from an observable state are observable. -/
lemma reachable_trans {s s' : ThreadingState} (hr : ReachableState s)
    (hstar : Relation.ReflTransGen ThreadingStep s s') : ReachableState s' := by
  induction hstar with
  | refl => exact hr
  | tail hab hbc ih => exact ReachableState.step ih hbc

/-- Under the pool invariant, a failed worker is neither idle nor busy. -/
lemma failed_not_idle_or_busy {s : ThreadingState} (hInv : ThreadingInv s) {w : Nat}
    (hw : w ∈ s.failedWorkers) :
    w ∉ s.idleWorkers ∧ ∀ task, (w, task) ∉ s.busyWorkers := by
  have hnd := hInv.nodupWorkers
  rw [List.nodup_append] at hnd
  have hdisj := hnd.2.2
  constructor
  · intro hidle
    exact hdisj (List.mem_append_left _ hidle) hw
  · intro task hbusy
    exact hdisj (List.mem_append_right _ (List.mem_map_of_mem Prod.fst hbusy)) hw

/-- A sample file record used by the concrete dispatcher scenarios. -/
def recA : Record := ⟨"a.txt", RecordType.file⟩

/-- A second sample file record. -/
def recB : Record := ⟨"b.txt", RecordType.file⟩

/-- A third sample file record. -/
def recC : Record := ⟨"c.txt", RecordType.file⟩

/-- The observable state after starting a two-worker pool and adding
three upload tasks in one batch: the single dispatch attempt of addTasks
has assigned one task, leaving two tasks queued and one worker idle. -/
def threeTaskState : ThreadingState :=
  addTasks (startState 2) [recA, recB, recC] FTPAction.upload

/-- The observable state after the busy worker of threeTaskState reports
a failure carrying its task. -/
def failedDemoState : ThreadingState :=
  onTaskFailed threeTaskState 0 (some ⟨FTPAction.upload, recA⟩)

/-- threeTaskState is observable: pool start followed by one addTasks
call. -/
lemma threeTaskState_reachable : ReachableState threeTaskState :=
  ReachableState.step (ReachableState.start 2)
    (ThreadingStep.addTasksStep (startState 2) [recA, recB, recC] FTPAction.upload)

/-- failedDemoState is observable: the busy worker of threeTaskState
reports a failure carrying its assigned task. -/
lemma failedDemoState_reachable : ReachableState failedDemoState :=
  ReachableState.step threeTaskState_reachable
    (ThreadingStep.failedStep threeTaskState 0 ⟨FTPAction.upload, recA⟩ (by decide) true)

/-- C2 (amended): a single call to processNextTask assigns at most one
task: when the queue and the idle list are both nonempty it removes the
head (oldest) task and the first idle worker and hands the task to that
worker, and in every other case it leaves the state unchanged; one call
never assigns a second task. -/
theorem processNextTask_single_dispatch (s : ThreadingState) :
    (∀ task restQueue worker restIdle,
        s.taskQueue = task :: restQueue → s.idleWorkers = worker :: restIdle →
        processNextTask s =
          { s with
            taskQueue := restQueue
            idleWorkers := restIdle
            busyWorkers := s.busyWorkers ++ [(worker, task)] })
    ∧ (s.taskQueue = [] ∨ s.idleWorkers = [] → processNextTask s = s) := by
  constructor
  · intro task restQueue worker restIdle hq hi
    simp [processNextTask, hq, hi]
  · rintro (hq | hi)
    · cases hi' : s.idleWorkers <;> simp [processNextTask, hq, hi']
    · cases hq' : s.taskQueue <;> simp [processNextTask, hi, hq']

/-- Witness for the single-dispatch theorem on the concrete three-task
two-worker state created inside addTasks. -/
theorem processNextTask_single_dispatch_witness :
    threeTaskState.taskQueue = ⟨FTPAction.upload, recB⟩ :: [⟨FTPAction.upload, recC⟩]
    ∧ threeTaskState.idleWorkers = 1 :: []
    ∧ processNextTask threeTaskState =
        { threeTaskState with
          taskQueue := [⟨FTPAction.upload, recC⟩]
          idleWorkers := []
          busyWorkers := threeTaskState.busyWorkers ++ [(1, ⟨FTPAction.upload, recB⟩)] } :=
  ⟨by decide, by decide,
   (processNextTask_single_dispatch threeTaskState).1 ⟨FTPAction.upload, recB⟩
     [⟨FTPAction.upload, recC⟩] 1 [] (by decide) (by decide)⟩

/-- The dispatcher state reached inside addTasks just before its dispatch
attempt: three tasks queued, both workers idle. -/
def preDispatchState : ThreadingState :=
  { numWorkers := 2
    taskQueue := [⟨FTPAction.upload, recA⟩, ⟨FTPAction.upload, recB⟩,
      ⟨FTPAction.upload, recC⟩]
    idleWorkers := [0, 1]
    busyWorkers := []
    failedWorkers := []
    activeTasks := 3 }

/-- C2 counterexample: one processNextTask call on a state with three
queued tasks and two idle workers assigns exactly one task and returns
with two tasks still queued and a worker still idle, refuting the claim
that a single dispatch call keeps assigning for as long as the queue is
nonempty and an idle worker exists; this very call is the one performed
inside addTasks on a fresh two-worker pool. -/
theorem processNextTask_not_exhaustive :
    threeTaskState = processNextTask preDispatchState
    ∧ (processNextTask preDispatchState).taskQueue ≠ []
    ∧ (processNextTask preDispatchState).idleWorkers ≠ [] := by
  decide

/-- C3 (amended): at every observable point between pool start and stop
the idle, busy and failed workers together account for exactly the
configured pool size; the idle plus busy count alone therefore equals the
pool size minus the number of workers terminated by failure reports. -/
theorem worker_accounting_of_reachable (s : ThreadingState) (h : ReachableState s) :
    s.idleWorkers.length + s.busyWorkers.length + s.failedWorkers.length = s.numWorkers :=
  (threadingInv_reachable h).workerCount

/-- Witness for the worker-accounting theorem at the freshly started
two-worker pool. -/
theorem worker_accounting_of_reachable_witness :
    (startState 2).idleWorkers.length + (startState 2).busyWorkers.length +
        (startState 2).failedWorkers.length = (startState 2).numWorkers :=
  worker_accounting_of_reachable (startState 2) (ReachableState.start 2)

/-- C3 counterexample: in the observable state reached after a worker
reports a task failure, the failed worker is terminated without being
returned to the idle list, so idle plus busy workers no longer equal the
configured pool size. -/
theorem idle_busy_sum_broken_after_failure :
    ReachableState failedDemoState
    ∧ failedDemoState.idleWorkers.length + failedDemoState.busyWorkers.length ≠
        failedDemoState.numWorkers :=
  ⟨failedDemoState_reachable, by decide⟩

/-- C5: a failure report carrying the failed task decrements the
active-task counter and increments it back while re-enqueueing the task
at the queue tail, for a net unchanged counter; and a worker that has
reported a failure is discarded for good: in every later observable
state it is still recorded failed, never idle and never busy, hence never
handed a subsequent task. -/
theorem taskFailed_requeue_and_discard :
    (∀ (s : ThreadingState) (worker : Nat) (task : ActionRecord),
        (onTaskFailed s worker (some task)).activeTasks = s.activeTasks
        ∧ (onTaskFailed s worker (some task)).taskQueue = s.taskQueue ++ [task])
    ∧ (∀ (s s' : ThreadingState) (worker : Nat), ReachableState s →
        worker ∈ s.failedWorkers → Relation.ReflTransGen ThreadingStep s s' →
        worker ∈ s'.failedWorkers ∧ worker ∉ s'.idleWorkers ∧
          ∀ task, (worker, task) ∉ s'.busyWorkers) := by
  constructor
  · intro s worker task
    refine ⟨?_, rfl⟩
    show s.activeTasks - 1 + 1 = s.activeTasks
    omega
  · intro s s' worker hr hw hstar
    have hw' : worker ∈ s'.failedWorkers := by
      induction hstar with
      | refl => exact hw
      | tail hab hbc ih => exact failed_mem_step hbc ih
    have hInv := threadingInv_reachable (reachable_trans hr hstar)
    rcases failed_not_idle_or_busy hInv hw' with ⟨h1, h2⟩
    exact ⟨hw', h1, h2⟩

/-- Witness for the failure-report theorem: the concrete requeue of the
failed task of threeTaskState, and the discarded worker of
failedDemoState staying failed, not idle and not busy. -/
theorem taskFailed_requeue_and_discard_witness :
    (onTaskFailed threeTaskState 0 (some ⟨FTPAction.upload, recA⟩)).taskQueue =
        threeTaskState.taskQueue ++ [⟨FTPAction.upload, recA⟩]
    ∧ (0 ∈ failedDemoState.failedWorkers ∧ 0 ∉ failedDemoState.idleWorkers ∧
        ∀ task, (0, task) ∉ failedDemoState.busyWorkers) :=
  ⟨(taskFailed_requeue_and_discard.1 threeTaskState 0 ⟨FTPAction.upload, recA⟩).2,
   taskFailed_requeue_and_discard.2 failedDemoState failedDemoState 0
     failedDemoState_reachable (by decide) Relation.ReflTransGen.refl⟩

/-- C4: the session-tier recovery of the worker loop: a run performs at
most one reconnect cycle and at most two sync attempts; a first-sync
failure recognizable as not connected triggers exactly one reconnect
cycle; any other failure reports taskFailed with the original task and
error and triggers no reconnect; a failed reconnect reports taskFailed
with the original task and error; a failed retried sync reports
taskFailed with the original task and the retry error. -/
theorem processTask_retry_policy (env : WorkerEnv) (task : ActionRecord) :
    ((processTask env task).1.count WorkerEvent.reconnectAttempt ≤ 1)
    ∧ ((processTask env task).1.count WorkerEvent.syncAttempt ≤ 2)
    ∧ (∀ errId, env.freshConnOk = true → env.firstSync = SyncOutcome.failure true errId →
        (processTask env task).1.count WorkerEvent.reconnectAttempt = 1)
    ∧ (∀ errId, env.freshConnOk = true → env.firstSync = SyncOutcome.failure false errId →
        (processTask env task).1 =
          [WorkerEvent.syncAttempt, WorkerEvent.post (WorkerMsg.taskFailedMsg task errId)]
        ∧ (processTask env task).2 = false)
    ∧ (∀ errId, env.freshConnOk = true → env.firstSync = SyncOutcome.failure true errId →
        env.establishOk = false →
        WorkerEvent.post (WorkerMsg.taskFailedMsg task errId) ∈ (processTask env task).1
        ∧ (processTask env task).2 = false)
    ∧ (∀ errId nc retryErrId, env.freshConnOk = true →
        env.firstSync = SyncOutcome.failure true errId →
        env.establishOk = true → env.retrySync = SyncOutcome.failure nc retryErrId →
        WorkerEvent.post (WorkerMsg.taskFailedMsg task retryErrId) ∈ (processTask env task).1
        ∧ (processTask env task).2 = false) := by
  rcases env with ⟨fc, fs, eo, rs⟩
  cases fc
  case false => simp [processTask]
  case true =>
    cases fs with
    | success => simp [processTask]
    | failure nc errId =>
        cases nc
        case false => simp [processTask]
        case true =>
          cases eo
          case false => simp [processTask]
          case true =>
            cases rs with
            | success => simp [processTask]
            | failure nc2 retryErrId => simp [processTask]

/-- Witness for the worker retry-policy theorem on a not-connected first
failure followed by a failed reconnect. -/
theorem processTask_retry_policy_witness :
    (processTask ⟨true, SyncOutcome.failure true 7, false, SyncOutcome.success⟩
        ⟨FTPAction.upload, recA⟩).1.count WorkerEvent.reconnectAttempt = 1
    ∧ WorkerEvent.post (WorkerMsg.taskFailedMsg ⟨FTPAction.upload, recA⟩ 7) ∈
        (processTask ⟨true, SyncOutcome.failure true 7, false, SyncOutcome.success⟩
          ⟨FTPAction.upload, recA⟩).1 :=
  ⟨(processTask_retry_policy ⟨true, SyncOutcome.failure true 7, false, SyncOutcome.success⟩
      ⟨FTPAction.upload, recA⟩).2.2.1 7 rfl rfl,
   ((processTask_retry_policy ⟨true, SyncOutcome.failure true 7, false, SyncOutcome.success⟩
      ⟨FTPAction.upload, recA⟩).2.2.2.2.1 7 rfl rfl rfl).1⟩

/-- Every step of the sequential per-record phase is a dispatch step. -/
lemma seqDispatchSteps_shape (stateName : String) (diffs : DiffResult) :
    ∀ step ∈ seqDispatchSteps stateName diffs,
      ∃ action r, step = DeployStep.dispatchStep action r := by
  intro step hstep
  unfold seqDispatchSteps at hstep
  simp only [List.mem_append, List.mem_map] at hstep
  rcases hstep with ((((⟨r, _, hr⟩ | ⟨r, _, hr⟩) | ⟨r, _, hr⟩) | ⟨r, _, hr⟩) | ⟨r, _, hr⟩) <;>
    exact ⟨_, r, hr.symm⟩

/-- Every step of the multithreaded per-record phase is an enqueue or a
main-session dispatch. -/
lemma mtDispatchSteps_shape (stateName : String) (diffs : DiffResult) :
    ∀ step ∈ mtDispatchSteps stateName diffs,
      (∃ action r, step = MTStep.enqueueStep action r) ∨
        (∃ action r, step = MTStep.mainSyncStep action r) := by
  intro step hstep
  unfold mtDispatchSteps at hstep
  simp only [List.mem_append, List.mem_map, List.mem_flatMap, List.mem_cons] at hstep
  rcases hstep with ((((⟨r, _, hr⟩ | ⟨f, _, hf | ⟨r, _, hr⟩⟩) | ⟨r, _, hr⟩) | ⟨r, _, hr⟩) |
      ⟨r, _, hr⟩)
  · exact Or.inl ⟨_, r, hr.symm⟩
  · exact Or.inr ⟨_, f, hf⟩
  · exact Or.inl ⟨_, r, hr.symm⟩
  · exact Or.inr ⟨_, r, hr.symm⟩
  · exact Or.inl ⟨_, r, hr.symm⟩
  · exact Or.inl ⟨_, r, hr.symm⟩

/-- Any record dispatched by the sequential phase under an upload action
from the folder loop, or reached through the two name-filtered loops, or
from the delete loops, respects the delete-set and upload-folder
hypotheses on the state name. -/
lemma seqDispatchSteps_no_state_name {stateName : String} {diffs : DiffResult}
    (hdel : ∀ r ∈ diffs.delete, r.name ≠ stateName)
    (hupfold : ∀ r ∈ diffs.upload, r.type = RecordType.folder → r.name ≠ stateName) :
    ∀ action r, DeployStep.dispatchStep action r ∈ seqDispatchSteps stateName diffs →
      r.name ≠ stateName := by
  intro action r hmem
  unfold seqDispatchSteps at hmem
  simp only [List.mem_append, List.mem_map, List.mem_filter, decide_eq_true_eq] at hmem
  rcases hmem with ((((⟨a, ⟨ha, hty⟩, he⟩ | ⟨a, ⟨_, hname⟩, he⟩) | ⟨a, ⟨_, hname⟩, he⟩) |
      ⟨a, ⟨ha, _⟩, he⟩) | ⟨a, ⟨ha, _⟩, he⟩)
  · cases he; exact hupfold r ha hty
  · cases he; exact hname
  · cases he; exact hname
  · cases he; exact hdel r ha
  · cases he; exact hdel r ha

/-- Any record enqueued or main-session dispatched by the multithreaded
phase respects the delete-set and upload-folder hypotheses on the state
name. -/
lemma mtDispatchSteps_no_state_name {stateName : String} {diffs : DiffResult}
    (hdel : ∀ r ∈ diffs.delete, r.name ≠ stateName)
    (hupfold : ∀ r ∈ diffs.upload, r.type = RecordType.folder → r.name ≠ stateName) :
    ∀ action r,
      (MTStep.enqueueStep action r ∈ mtDispatchSteps stateName diffs ∨
        MTStep.mainSyncStep action r ∈ mtDispatchSteps stateName diffs) →
      r.name ≠ stateName := by
  have huf : ∀ r ∈ uploadFilesOf stateName diffs, r.name ≠ stateName := by
    intro r hr
    unfold uploadFilesOf at hr
    simp only [List.mem_filter, Bool.and_eq_true, decide_eq_true_eq] at hr
    exact hr.2.2
  intro action r hmem
  cases hmem with
  | inl h =>
      unfold mtDispatchSteps at h
      simp only [List.mem_append, List.mem_map, List.mem_flatMap, List.mem_cons,
        List.mem_filter, Bool.and_eq_true, decide_eq_true_eq] at h
      rcases h with ((((⟨a, ⟨ha, _⟩, he⟩ | ⟨f, _, hf | ⟨a, ⟨ha, _⟩, he⟩⟩) | ⟨a, ⟨_, _⟩, he⟩) |
          ⟨a, ⟨_, ⟨_, hname⟩⟩, he⟩) | ⟨a, ⟨ha, _⟩, he⟩)
      · cases he; exact huf r ha
      · cases hf
      · cases he; exact huf r ha
      · cases he
      · cases he; exact hname
      · cases he; exact hdel r ha
  | inr h =>
      unfold mtDispatchSteps at h
      simp only [List.mem_append, List.mem_map, List.mem_flatMap, List.mem_cons,
        List.mem_filter, Bool.and_eq_true, decide_eq_true_eq] at h
      rcases h with ((((⟨a, ⟨_, _⟩, he⟩ | ⟨f, ⟨hfm, hfty⟩, hf | ⟨a, ⟨_, _⟩, he⟩⟩) |
          ⟨a, ⟨ha, _⟩, he⟩) | ⟨a, ⟨_, ⟨_, _⟩⟩, he⟩) | ⟨a, ⟨ha, _⟩, he⟩)
      · cases he
      · cases hf; exact hupfold r hfm hfty
      · cases he
      · cases he; exact hdel r ha
      · cases he
      · cases he

/-- The state-upload step never occurs in the sequential per-record
phase. -/
lemma stateUpload_not_mem_seq (stateName : String) (diffs : DiffResult) :
    DeployStep.stateUploadStep ∉ seqDispatchSteps stateName diffs := by
  intro hmem
  rcases seqDispatchSteps_shape stateName diffs _ hmem with ⟨a, r, he⟩
  cases he

/-- Neither the wait step nor the state-upload step occurs in the
multithreaded per-record phase. -/
lemma control_not_mem_mt (stateName : String) (diffs : DiffResult) :
    MTStep.waitDrainStep ∉ mtDispatchSteps stateName diffs
    ∧ MTStep.stateUploadStep ∉ mtDispatchSteps stateName diffs := by
  constructor <;> intro hmem <;>
    rcases mtDispatchSteps_shape stateName diffs _ hmem with ⟨a, r, he⟩ | ⟨a, r, he⟩ <;>
    cases he

/-- C1 (amended): the sequential and multithreaded reconcilers exclude
the state-file name from the upload and replace file dispatch by
construction but not from the delete dispatch; for every diff whose
delete set carries no record named like the state file and whose upload
set carries no folder named like the state file, no dispatched record
bears the state-file name, and outside dry-run both reconcilers upload
the state file exactly once, as the last step of the deployment. -/
theorem state_file_dispatch_isolation (stateName : String) (dryRun : Bool)
    (diffs : DiffResult)
    (hdel : ∀ r ∈ diffs.delete, r.name ≠ stateName)
    (hupfold : ∀ r ∈ diffs.upload, r.type = RecordType.folder → r.name ≠ stateName) :
    (∀ action r,
        DeployStep.dispatchStep action r ∈ syncLocalToServer stateName dryRun diffs →
        r.name ≠ stateName)
    ∧ (∀ action r,
        (MTStep.enqueueStep action r ∈ syncLocalToServerMultiThread stateName dryRun diffs ∨
          MTStep.mainSyncStep action r ∈ syncLocalToServerMultiThread stateName dryRun diffs) →
        r.name ≠ stateName)
    ∧ (dryRun = false →
        (syncLocalToServer stateName dryRun diffs).getLast? =
            some DeployStep.stateUploadStep
        ∧ (syncLocalToServer stateName dryRun diffs).count DeployStep.stateUploadStep = 1
        ∧ (syncLocalToServerMultiThread stateName dryRun diffs).getLast? =
            some MTStep.stateUploadStep
        ∧ (syncLocalToServerMultiThread stateName dryRun diffs).count
            MTStep.stateUploadStep = 1) := by
  refine ⟨?_, ?_, ?_⟩
  · intro action r hmem
    rw [syncLocalToServer, List.mem_append] at hmem
    rcases hmem with hmem | hmem
    · exact seqDispatchSteps_no_state_name hdel hupfold action r hmem
    · exfalso
      cases hdr : dryRun <;> rw [hdr] at hmem <;> simp at hmem
  · intro action r hmem
    refine mtDispatchSteps_no_state_name hdel hupfold action r ?_
    rcases hmem with hmem | hmem
    · rw [syncLocalToServerMultiThread, List.mem_append] at hmem
      rcases hmem with hmem | hmem
      · exact Or.inl hmem
      · exfalso
        cases hdr : dryRun <;> rw [hdr] at hmem <;> simp at hmem
    · rw [syncLocalToServerMultiThread, List.mem_append] at hmem
      rcases hmem with hmem | hmem
      · exact Or.inr hmem
      · exfalso
        cases hdr : dryRun <;> rw [hdr] at hmem <;> simp at hmem
  · intro hdr
    subst hdr
    refine ⟨?_, ?_, ?_, ?_⟩
    · rw [syncLocalToServer]
      simp only [if_pos rfl]
      exact List.getLast?_concat _
    · rw [syncLocalToServer]
      simp only [if_pos rfl]
      rw [List.count_append,
        List.count_eq_zero.mpr (stateUpload_not_mem_seq stateName diffs)]
      rfl
    · rw [syncLocalToServerMultiThread]
      simp only [if_pos rfl]
      rw [List.getLast?_append_of_ne_nil _ (by simp)]
      rfl
    · rw [syncLocalToServerMultiThread]
      simp only [if_pos rfl]
      rw [List.count_append,
        List.count_eq_zero.mpr (control_not_mem_mt stateName diffs).2]
      rfl

/-- A diff whose delete set contains a file record named exactly like the
state file. -/
def stateDeleteDiff : DiffResult :=
  { upload := [], replace := [], delete := [⟨"state.json", RecordType.file⟩], same := []
    sizeUpload := 0, sizeReplace := 0, sizeDelete := 0 }

/-- C1 counterexample: the sequential reconciler dispatches a delete of
the record named like the state file, because the delete loops do not
filter on the state-file name, refuting the reading that the state-file
path never appears among the dispatched records. -/
theorem state_file_dispatched_for_delete :
    DeployStep.dispatchStep FTPAction.delete ⟨"state.json", RecordType.file⟩ ∈
      syncLocalToServer "state.json" false stateDeleteDiff := by
  decide

/-- A small deployment diff used to witness the state-file isolation
theorem: one new folder with one file inside, one deleted file. -/
def demoDiff : DiffResult :=
  { upload := [⟨"img", RecordType.folder⟩, ⟨"img/a.png", RecordType.file⟩]
    replace := [], delete := [⟨"old.txt", RecordType.file⟩], same := []
    sizeUpload := 0, sizeReplace := 0, sizeDelete := 0 }

/-- Witness for the state-file isolation theorem on the demo diff. -/
theorem state_file_dispatch_isolation_witness :
    (∀ r ∈ demoDiff.delete, r.name ≠ "state.json")
    ∧ (∀ r ∈ demoDiff.upload, r.type = RecordType.folder → r.name ≠ "state.json")
    ∧ ∀ action r,
        DeployStep.dispatchStep action r ∈ syncLocalToServer "state.json" false demoDiff →
        r.name ≠ "state.json" :=
  ⟨by decide, by decide,
   (state_file_dispatch_isolation "state.json" false demoDiff (by decide) (by decide)).1⟩

/-- The index of the wait step in the multithreaded trace is exactly the
length of the per-record phase. -/
lemma mt_waitDrain_index {stateName : String} {dryRun : Bool} {diffs : DiffResult} {i : Nat}
    (hi : (syncLocalToServerMultiThread stateName dryRun diffs)[i]? =
      some MTStep.waitDrainStep) :
    i = (mtDispatchSteps stateName diffs).length := by
  rcases lt_or_ge i (mtDispatchSteps stateName diffs).length with h | h
  · exfalso
    rw [syncLocalToServerMultiThread, List.getElem?_append_left h] at hi
    exact (control_not_mem_mt stateName diffs).1 (List.getElem?_mem hi)
  · rcases Nat.eq_or_lt_of_le h with heq | hlt
    · exact heq.symm
    · exfalso
      rw [syncLocalToServerMultiThread, List.getElem?_append_right h] at hi
      have hk : i - (mtDispatchSteps stateName diffs).length =
          (i - (mtDispatchSteps stateName diffs).length - 1) + 1 := by omega
      rw [hk, List.getElem?_cons_succ] at hi
      cases hdr : dryRun <;> rw [hdr] at hi <;> simp at hi
      rcases hk2 : i - (mtDispatchSteps stateName diffs).length - 1 with _ | k <;>
        rw [hk2] at hi <;> simp at hi

/-- The index of the state-upload step in the multithreaded trace is
strictly beyond the wait step. -/
lemma mt_stateUpload_index {stateName : String} {dryRun : Bool} {diffs : DiffResult} {j : Nat}
    (hj : (syncLocalToServerMultiThread stateName dryRun diffs)[j]? =
      some MTStep.stateUploadStep) :
    (mtDispatchSteps stateName diffs).length < j := by
  rcases lt_or_ge j (mtDispatchSteps stateName diffs).length with h | h
  · exfalso
    rw [syncLocalToServerMultiThread, List.getElem?_append_left h] at hj
    exact (control_not_mem_mt stateName diffs).2 (List.getElem?_mem hj)
  · rcases Nat.eq_or_lt_of_le h with heq | hlt
    · exfalso
      rw [syncLocalToServerMultiThread, List.getElem?_append_right h, ← heq,
        Nat.sub_self] at hj
      simp at hj
    · exact hlt

/-- C9: the polling loop of waitForAllTasks exits only in an observable
state whose active-task counter is zero and whose queue is empty, and in
the multithreaded reconciler the state-file upload step occurs strictly
after the wait step, so the state file is uploaded only after all
dispatched work has drained. -/
theorem waitForAllTasks_gate (s : ThreadingState) (hr : ReachableState s)
    (hd : allTasksDone s) :
    (s.activeTasks = 0 ∧ s.taskQueue = [])
    ∧ ∀ (stateName : String) (dryRun : Bool) (diffs : DiffResult) (i j : Nat),
        (syncLocalToServerMultiThread stateName dryRun diffs)[i]? =
            some MTStep.waitDrainStep →
        (syncLocalToServerMultiThread stateName dryRun diffs)[j]? =
            some MTStep.stateUploadStep →
        i < j := by
  constructor
  · have htc := (threadingInv_reachable hr).taskCount
    unfold allTasksDone at hd
    push_neg at hd
    obtain ⟨h1, h2⟩ := hd
    have hq : s.taskQueue.length = 0 := by omega
    refine ⟨by omega, List.length_eq_zero.mp hq⟩
  · intro stateName dryRun diffs i j hi hj
    have h1 := mt_waitDrain_index hi
    have h2 := mt_stateUpload_index hj
    omega

/-- Witness for the drain-gate theorem at a freshly started three-worker
pool, whose counter is zero and queue empty. -/
theorem waitForAllTasks_gate_witness :
    allTasksDone (startState 3)
    ∧ (startState 3).activeTasks = 0 ∧ (startState 3).taskQueue = [] :=
  ⟨by unfold allTasksDone; decide,
   (waitForAllTasks_gate (startState 3) (ReachableState.start 3)
     (by unfold allTasksDone; decide)).1⟩

end FtpDeploy
